import Mathlib

/-!
Verification of the X-Ray pipeline-tracing engine.

Shallow embedding of the SDK (`sdk/step.py`, `sdk/run.py`, `sdk/xray.py`)
and the query/storage layer (`api/storage.py`).

Modelling conventions:
* Python `dict`s (insertion-ordered, duplicate-free) are association lists
  `List (String × α)` with lookup-first / update-in-place-or-append semantics.
* `datetime.utcnow()` values are naturals (milliseconds); ISO-8601 strings
  compare in the same order as the instants they denote, so sorting by the
  numeric timestamp is order-faithful to sorting by the stored string.
* `random.random()` is an injected draw `u : ℚ` with `0 ≤ u < 1`; the
  comparison `random.random() < rate` becomes `u < rate`.
* Python floats are modelled as rationals `ℚ`.
* Opaque structured payloads (`input`, `output`, `details`, `metadata`) are
  `List (String × String)`; the engine never inspects them.
-/

namespace XRayArch

/-- Opaque structured payload (the engine only stores and forwards these). -/
abbrev Payload := List (String × String)

/-- Python dict lookup `d.get(k, dflt)` on the association-list model. -/
def lookupD {α : Type} (d : List (String × α)) (k : String) (dflt : α) : α :=
  match d with
  | [] => dflt
  | (k', v) :: rest => if k' = k then v else lookupD rest k dflt

/-- Python dict assignment `d[k] = v`: update the existing entry in place, or
append a fresh entry at the end (insertion-order semantics). -/
def dictSet {α : Type} (d : List (String × α)) (k : String) (v : α) :
    List (String × α) :=
  match d with
  | [] => [(k, v)]
  | (k', v') :: rest =>
      if k' = k then (k, v) :: rest else (k', v') :: dictSet rest k v

/-- One sampled rejection record (`step.py`, `Step.reject`): item id, reason
code, detail payload, timestamp. -/
structure Rejection where
  item_id : String
  reason : String
  details : Payload
  timestamp : Nat
  deriving DecidableEq, Repr

/-- One acceptance record (`step.py`, `Step.accept`). -/
structure Acceptance where
  item_id : String
  reason : Option String
  details : Payload
  timestamp : Nat
  deriving DecidableEq, Repr

/-- One decision record (`step.py`, `Step.decide`). -/
structure Decision where
  decision : String
  selected : Option String
  reason : Option String
  score : Option ℚ
  alternatives : Option (List Payload)
  details : Payload
  timestamp : Nat
  deriving DecidableEq, Repr

/-- In-progress state of one `Step` (`step.py`, `Step.__init__`). -/
structure StepState where
  name : String
  step_type : Option String
  capture : String
  input : Option Payload
  output : Option Payload
  input_count : Option Int
  output_count : Option Int
  rejection_counts : List (String × Nat)
  rejection_samples : List (String × List Rejection)
  acceptances : List Acceptance
  decisions : List Decision
  started_at : Nat
  ended_at : Option Nat
  error : Option String
  metadata : Payload
  deriving DecidableEq, Repr

namespace Step

/-- Constant `Step.DEFAULT_SAMPLE_RATE = 0.01`. -/
def DEFAULT_SAMPLE_RATE : ℚ := 1 / 100

/-- Constant `Step.MIN_SAMPLES_PER_REASON = 5`. -/
def MIN_SAMPLES_PER_REASON : Nat := 5

/-- Constant `Step.MAX_SAMPLES_PER_REASON = 20`. -/
def MAX_SAMPLES_PER_REASON : Nat := 20

/-- Constructor `Step.__init__`: fresh step state (`started_at` is the current time). -/
def init (name : String) (step_type : Option String) (capture : String)
    (now : Nat) : StepState :=
  { name := name
    step_type := step_type
    capture := capture
    input := none
    output := none
    input_count := none
    output_count := none
    rejection_counts := []
    rejection_samples := []
    acceptances := []
    decisions := []
    started_at := now
    ended_at := none
    error := none
    metadata := [] }

/-- Source `Step._should_sample(reason)`: sample while below the per-reason minimum,
never at or above the per-reason maximum, otherwise with probability
`DEFAULT_SAMPLE_RATE` (the injected draw `u` stands for `random.random()`). -/
def shouldSample (st : StepState) (reason : String) (u : ℚ) : Bool :=
  let current_samples := (lookupD st.rejection_samples reason []).length
  if current_samples < MIN_SAMPLES_PER_REASON then
    true
  else if current_samples ≥ MAX_SAMPLES_PER_REASON then
    false
  else
    decide (u < DEFAULT_SAMPLE_RATE)

/-- The capture-mode dispatch inside `Step.reject`: `full` → always sample,
`none` → never, anything else falls into the `"sample"` branch. -/
def captureDecision (capture : String) (st : StepState) (reason : String)
    (u : ℚ) : Bool :=
  if capture = "full" then true
  else if capture = "none" then false
  else shouldSample st reason u

/-- Source `Step.reject(item_id, reason, details)`: always increment the reason's
exhaustive count; then, if the capture decision says to sample, append the
rejection to the reason's sample list unless it already holds
`MAX_SAMPLES_PER_REASON` entries. -/
def reject (st : StepState) (item_id reason : String)
    (details : Option Payload) (u : ℚ) (now : Nat) : StepState :=
  let st1 := { st with
    rejection_counts :=
      dictSet st.rejection_counts reason
        (lookupD st.rejection_counts reason 0 + 1) }
  let should_sample := captureDecision st1.capture st1 reason u
  if should_sample then
    let rejection : Rejection :=
      { item_id := item_id
        reason := reason
        details := details.getD []
        timestamp := now }
    let samples := lookupD st1.rejection_samples reason []
    if samples.length < MAX_SAMPLES_PER_REASON then
      { st1 with
        rejection_samples :=
          dictSet st1.rejection_samples reason (samples ++ [rejection]) }
    else st1
  else st1

/-- Source `Step.accept(item_id, reason, details)`: always retained. -/
def accept (st : StepState) (item_id : String) (reason : Option String)
    (details : Option Payload) (now : Nat) : StepState :=
  { st with
    acceptances := st.acceptances ++
      [{ item_id := item_id
         reason := reason
         details := details.getD []
         timestamp := now }] }

/-- Source `Step._calculate_rejection_rate`: `None` if either count is unset, `0.0`
if `input_count == 0`, else `1 - output_count / input_count`. -/
def calculateRejectionRate (input_count output_count : Option Int) :
    Option ℚ :=
  match input_count, output_count with
  | some i, some o =>
      if i = 0 then some 0 else some (1 - (o : ℚ) / (i : ℚ))
  | _, _ => none

/-- The `sampled_rejections` list built by `Step._to_dict`: the per-reason
sample lists flattened in dict (insertion) order. -/
def sampledRejections (st : StepState) : List Rejection :=
  (st.rejection_samples.map Prod.snd).flatten

end Step

/-- The step dictionary produced by `Step._to_dict` and stored inside a run. -/
structure StepData where
  name : String
  step_type : Option String
  input : Option Payload
  output : Option Payload
  input_count : Option Int
  output_count : Option Int
  rejection_rate : Option ℚ
  rejection_counts : List (String × Nat)
  sampled_rejections : List Rejection
  acceptances : List Acceptance
  decisions : List Decision
  started_at : Nat
  ended_at : Option Nat
  duration_ms : Option Int
  error : Option String
  metadata : Payload
  deriving DecidableEq, Repr

namespace Step

/-- Source `Step._calculate_duration`: milliseconds between start and end, `None`
while the step has not ended. -/
def calculateDuration (started_at : Nat) (ended_at : Option Nat) :
    Option Int :=
  match ended_at with
  | none => none
  | some e => some ((e : Int) - (started_at : Int))

/-- Source `Step._to_dict`: seal the step state into the stored step dictionary. -/
def toDict (st : StepState) : StepData :=
  { name := st.name
    step_type := st.step_type
    input := st.input
    output := st.output
    input_count := st.input_count
    output_count := st.output_count
    rejection_rate := calculateRejectionRate st.input_count st.output_count
    rejection_counts := st.rejection_counts
    sampled_rejections := sampledRejections st
    acceptances := st.acceptances
    decisions := st.decisions
    started_at := st.started_at
    ended_at := st.ended_at
    duration_ms := calculateDuration st.started_at st.ended_at
    error := st.error
    metadata := st.metadata }

end Step

/-- Client configuration (`xray.py`, `XRay.__init__`): the constructor
stores the pipeline name, the URL stripped of trailing slashes, and the
offline-mode string — with no validation of the mode. -/
structure XRayConfig where
  pipeline : String
  api_url : String
  offline_mode : String
  deriving DecidableEq, Repr

/-- Model of `api_url.rstrip("/")`. -/
def rstripSlash (s : String) : String :=
  ⟨(s.toList.reverse.dropWhile (fun c => c = '/')).reverse⟩

namespace XRay

/-- Constructor `XRay.__init__(pipeline, api_url, offline_mode)`: total, no validation. -/
def init (pipeline api_url offline_mode : String) : XRayConfig :=
  { pipeline := pipeline
    api_url := rstripSlash api_url
    offline_mode := offline_mode }

end XRay

/-- In-progress state of one `Run` (`run.py`, `Run.__init__`). -/
structure RunState where
  run_id : String
  pipeline : String
  input : Payload
  xray : XRayConfig
  output : Option Payload
  status : String
  steps : List StepData
  started_at : Nat
  ended_at : Option Nat
  error : Option String
  metadata : Payload
  deriving DecidableEq, Repr

/-- The finalized run document built by `Run._send` (what the storage layer
receives and keeps). -/
structure RunRecord where
  run_id : String
  pipeline : String
  input : Payload
  output : Option Payload
  status : String
  error : Option String
  started_at : Nat
  ended_at : Option Nat
  duration_ms : Option Int
  steps : List StepData
  metadata : Payload
  deriving DecidableEq, Repr

/-- Outcome of `Run._send` as observed by the caller: delivered to the API,
saved to the offline retry area (buffer), a raised `ConnectionError`
(strict), or silently dropped. -/
inductive DeliveryOutcome where
  | delivered
  | savedOffline (data : RunRecord)
  | raisedConnectionError (msg : String)
  | dropped
  deriving DecidableEq, Repr

namespace Run

/-- Constructor `Run.__init__(run_id, pipeline, input, xray)`. -/
def init (run_id pipeline : String) (input : Payload) (xray : XRayConfig)
    (now : Nat) : RunState :=
  { run_id := run_id
    pipeline := pipeline
    input := input
    xray := xray
    output := none
    status := "running"
    steps := []
    started_at := now
    ended_at := none
    error := none
    metadata := [] }

/-- Source `Run.step(name, step_type, capture)`: builds a fresh `Step` with the
given capture string — any string is accepted, none is validated. -/
def step (_r : RunState) (name : String) (step_type : Option String)
    (capture : String) (now : Nat) : StepState :=
  Step.init name step_type capture now

/-- Source `Run._add_step`: append the sealed step dictionary to the run. -/
def addStep (r : RunState) (d : StepData) : RunState :=
  { r with steps := r.steps ++ [d] }

/-- Source `Run._calculate_duration`. -/
def calculateDuration (started_at : Nat) (ended_at : Option Nat) :
    Option Int :=
  match ended_at with
  | none => none
  | some e => some ((e : Int) - (started_at : Int))

/-- The run document `Run._send` assembles and submits. -/
def toRecord (r : RunState) : RunRecord :=
  { run_id := r.run_id
    pipeline := r.pipeline
    input := r.input
    output := r.output
    status := r.status
    error := r.error
    started_at := r.started_at
    ended_at := r.ended_at
    duration_ms := calculateDuration r.started_at r.ended_at
    steps := r.steps
    metadata := r.metadata }

/-- The failure-policy dispatch in `Run._send`: on success nothing happens;
on failure, `buffer` saves the record offline, `strict` raises a
`ConnectionError`, and anything else (including `drop`) silently ignores. -/
def sendOutcome (success : Bool) (offline_mode api_url : String)
    (run_data : RunRecord) : DeliveryOutcome :=
  if success then .delivered
  else if offline_mode = "buffer" then .savedOffline run_data
  else if offline_mode = "strict" then
    .raisedConnectionError ("Failed to send run data to " ++ api_url)
  else .dropped

end Run

/-- Source `Step.__exit__`: stamp the end time, record the fault message (if the
scope raised), and seal the step into the parent run via `_add_step`; the
exception itself is not suppressed. -/
def stepExit (st : StepState) (exc : Option String) (now : Nat)
    (run : RunState) : RunState :=
  let sealed := { st with
    ended_at := some now
    error := match exc with | some e => some e | none => st.error }
  Run.addStep run (Step.toDict sealed)

/-- Source `Run.__exit__`: stamp the end time, set `status`/`error` from how the
scope exited, and invoke `_send`; returns the finalized state together with
the delivery outcome (a `strict`-mode `ConnectionError` propagates). -/
def runExit (r : RunState) (exc : Option String) (now : Nat)
    (success : Bool) : RunState × DeliveryOutcome :=
  let r1 := { r with
    ended_at := some now
    status := match exc with | some _ => "failed" | none => "completed"
    error := match exc with | some e => some e | none => r.error }
  (r1, Run.sendOutcome success r1.xray.offline_mode r1.xray.api_url
    (Run.toRecord r1))

/-- Source `XRay._save_offline`: the buffered file's name — unique per run and
submission attempt (one document per buffered run submission). -/
def offlineFilename (run_id : String) (timestamp : String) : String :=
  run_id ++ "_" ++ timestamp ++ ".json"

/-! ## Storage and query layer (`api/storage.py`)

`RUNS.values()` iterates runs in insertion order; the store is modelled as
the list of stored run documents in that order. -/

/-- One row of `list_runs`' result (the summary dict built per run). -/
structure RunSummary where
  run_id : String
  pipeline : String
  status : String
  started_at : Nat
  ended_at : Option Nat
  duration_ms : Option Int
  step_count : Nat
  deriving DecidableEq, Repr

/-- One row of `list_steps`' flattened collection (step annotated with its
parent run's id and pipeline). -/
structure StepSummary where
  run_id : String
  pipeline : String
  step_name : String
  step_type : Option String
  input_count : Option Int
  output_count : Option Int
  rejection_rate : Option ℚ
  duration_ms : Option Int
  deriving DecidableEq, Repr

/-- Python string truthiness for an optional filter argument:
`None` and `""` are falsy, any other string is truthy. -/
def truthy : Option String → Bool
  | none => false
  | some s => !(s == "")

/-- Check that `needle` occurs in `hay` starting at the front. -/
def startsWithChars : List Char → List Char → Bool
  | [], _ => true
  | _ :: _, [] => false
  | a :: as, b :: bs => a == b && startsWithChars as bs

/-- Python's `needle in hay` substring test on the character lists. -/
def containsChars (needle : List Char) : List Char → Bool
  | [] => startsWithChars needle []
  | b :: bs => startsWithChars needle (b :: bs) || containsChars needle bs

/-- Substring test, Python's `needle in hay`, for strings. -/
def strContains (hay needle : String) : Bool :=
  containsChars needle.toList hay.toList

/-- The filter body of `list_runs`: a run is kept unless a truthy pipeline
filter mismatches or a truthy status filter mismatches. -/
def runKeep (pipeline status : Option String) (r : RunRecord) : Bool :=
  (if truthy pipeline then r.pipeline == pipeline.getD "" else true) &&
  (if truthy status then r.status == status.getD "" else true)

/-- Python's `filtered.sort(key=..., reverse=True)` is a stable descending sort;
insert the element (originally before the sorted tail) before the first
element whose key it ties or beats. -/
def orderedInsertDesc (a : RunRecord) : List RunRecord → List RunRecord
  | [] => [a]
  | b :: l =>
      if b.started_at ≤ a.started_at then a :: b :: l
      else b :: orderedInsertDesc a l

/-- Stable sort of runs by `started_at`, newest first. -/
def sortRunsDesc : List RunRecord → List RunRecord
  | [] => []
  | a :: l => orderedInsertDesc a (sortRunsDesc l)

/-- The summary row `list_runs` builds for one run. -/
def runSummary (r : RunRecord) : RunSummary :=
  { run_id := r.run_id
    pipeline := r.pipeline
    status := r.status
    started_at := r.started_at
    ended_at := r.ended_at
    duration_ms := r.duration_ms
    step_count := r.steps.length }

/-- Source `list_runs(pipeline, status, limit, offset)`: filter, sort newest-first,
take `total` before pagination, slice `[offset : offset+limit]`, summarize. -/
def list_runs (runs : List RunRecord) (pipeline status : Option String)
    (limit offset : Nat) : List RunSummary × Nat :=
  let filtered := runs.filter (runKeep pipeline status)
  let sorted := sortRunsDesc filtered
  let total := sorted.length
  let paginated := (sorted.drop offset).take limit
  (paginated.map runSummary, total)

/-- The `step_with_run` row built in `list_steps` for one step of one run. -/
def stepWithRun (run : RunRecord) (s : StepData) : StepSummary :=
  { run_id := run.run_id
    pipeline := run.pipeline
    step_name := s.name
    step_type := s.step_type
    input_count := s.input_count
    output_count := s.output_count
    rejection_rate := s.rejection_rate
    duration_ms := s.duration_ms }

/-- The flattened `all_steps` collection of `list_steps`. -/
def allSteps (runs : List RunRecord) : List StepSummary :=
  runs.flatMap (fun run => run.steps.map (stepWithRun run))

/-- The filter body of `list_steps`: exact type match (when the filter is
truthy), case-insensitive substring match on the name (when truthy), and
strict rejection-rate threshold tests (applied whenever the argument is not
`None`; a `None` stored rate fails either test). -/
def stepKeep (step_type name : Option String) (gt lt : Option ℚ)
    (s : StepSummary) : Bool :=
  (if truthy step_type then s.step_type == some (step_type.getD "") else true)
  &&
  (if truthy name then
      strContains (s.step_name.toLower) ((name.getD "").toLower)
    else true)
  &&
  (match gt with
   | some t =>
       match s.rejection_rate with
       | some rate => decide (t < rate)
       | none => false
   | none => true)
  &&
  (match lt with
   | some t =>
       match s.rejection_rate with
       | some rate => decide (rate < t)
       | none => false
   | none => true)

/-- Source `list_steps(step_type, name, rejection_rate_gt, rejection_rate_lt,
limit, offset)`: flatten, filter, take `total`, slice. -/
def list_steps (runs : List RunRecord) (step_type name : Option String)
    (gt lt : Option ℚ) (limit offset : Nat) : List StepSummary × Nat :=
  let filtered := (allSteps runs).filter (stepKeep step_type name gt lt)
  let total := filtered.length
  let paginated := (filtered.drop offset).take limit
  (paginated, total)

/-- Source `insert_run`: keying the store by `run_id`, a duplicate id overwrites
(last write wins); on the insertion-ordered list model, the first stored
record with the id is replaced in place, otherwise the record is appended. -/
def insert_run (runs : List RunRecord) (data : RunRecord) :
    List RunRecord :=
  match runs with
  | [] => [data]
  | r :: rest =>
      if r.run_id = data.run_id then data :: rest
      else r :: insert_run rest data

/-- One call of a reject trace (`reject` applied in sequence). -/
structure RejectCall where
  item_id : String
  reason : String
  details : Option Payload
  u : ℚ
  now : Nat
  deriving DecidableEq, Repr

/-- Apply a sequence of `reject` calls to a step state. -/
def applyRejects (st : StepState) : List RejectCall → StepState
  | [] => st
  | c :: rest =>
      applyRejects (Step.reject st c.item_id c.reason c.details c.u c.now) rest

/-- The sample dict is well keyed: every stored rejection sits under its own
reason's key and keys are unique (true of every state `reject` builds). -/
def samplesKeyed (d : List (String × List Rejection)) : Prop :=
  (∀ p ∈ d, ∀ x ∈ p.2, x.reason = p.1) ∧ (d.map Prod.fst).Nodup

/-! ## Concrete fixtures used by witnesses and counterexamples -/

/-- A sealed step document with a negative stored rejection rate
(`input_count=10`, `output_count=15`). -/
def demoStep : StepData :=
  { name := "filter"
    step_type := some "filter"
    input := none
    output := none
    input_count := some 10
    output_count := some 15
    rejection_rate := Step.calculateRejectionRate (some 10) (some 15)
    rejection_counts := []
    sampled_rejections := []
    acceptances := []
    decisions := []
    started_at := 0
    ended_at := some 5
    duration_ms := some 5
    error := none
    metadata := [] }

/-- A stored run document holding `demoStep`. -/
def demoRecord : RunRecord :=
  { run_id := "r1"
    pipeline := "p"
    input := []
    output := none
    status := "completed"
    error := none
    started_at := 0
    ended_at := some 9
    duration_ms := some 9
    steps := [demoStep]
    metadata := [] }

/-- A run opened against a `strict`-policy client. -/
def strictRun : RunState :=
  Run.init "r1" "p" [] (XRay.init "p" "http://localhost:8000" "strict") 0

/-- A reject call for item `i`, reason `r` (the bulk of the 21-call trace). -/
def bulkCall : RejectCall :=
  { item_id := "i", reason := "r", details := none, u := 0, now := 0 }

/-- The final reject call of the 21-call trace, for item `x`, reason `r`. -/
def lastCall : RejectCall :=
  { item_id := "x", reason := "r", details := none, u := 0, now := 0 }

/-- Calls rejecting the same reason `r` twenty-one times in `full` capture
mode: twenty with item `i`, then one with item `x`. -/
def fullModeCalls : List RejectCall :=
  List.replicate 20 bulkCall ++ [lastCall]

/-- A flattened step row whose stored rejection rate is unset. -/
def noneRateStep : StepSummary :=
  { run_id := "r1"
    pipeline := "p"
    step_name := "s"
    step_type := none
    input_count := none
    output_count := none
    rejection_rate := none
    duration_ms := none }

/-! ## Helper lemmas -/

/-- Lookup after a dict update: the updated key reads the new value, any
other key is untouched. -/
theorem lookupD_dictSet {α : Type} (d : List (String × α)) (k k' : String)
    (v dflt : α) :
    lookupD (dictSet d k v) k' dflt =
      if k = k' then v else lookupD d k' dflt := by
  induction d with
  | nil => simp [dictSet, lookupD]
  | cons p rest ih =>
      obtain ⟨k1, v1⟩ := p
      by_cases h1 : k1 = k
      · subst h1
        simp only [dictSet, if_pos rfl, lookupD]
        split_ifs <;> simp_all [lookupD]
      · simp only [dictSet, if_neg h1, lookupD]
        split_ifs <;> simp_all [lookupD]

/-- An element of the list a key maps to is an element of the flattened
value lists. -/
theorem mem_lookupD_flatten {x : Rejection}
    {d : List (String × List Rejection)} {k : String}
    (hx : x ∈ lookupD d k []) : x ∈ (d.map Prod.snd).flatten := by
  induction d with
  | nil => simp [lookupD] at hx
  | cons p rest ih =>
      obtain ⟨k1, v1⟩ := p
      simp only [List.map_cons, List.flatten_cons, List.mem_append]
      by_cases h1 : k1 = k
      · simp only [lookupD, if_pos h1] at hx
        exact Or.inl hx
      · simp only [lookupD, if_neg h1] at hx
        exact Or.inr (ih hx)

/-- The decision `Step._should_sample` reads only the per-reason sample lists. -/
theorem shouldSample_congr (st st' : StepState)
    (h : st.rejection_samples = st'.rejection_samples) (reason : String)
    (u : ℚ) : Step.shouldSample st reason u = Step.shouldSample st' reason u := by
  simp only [Step.shouldSample, h]

/-- The capture dispatch reads only the mode and the sample lists. -/
theorem captureDecision_congr (c : String) (st st' : StepState)
    (h : st.rejection_samples = st'.rejection_samples) (reason : String)
    (u : ℚ) :
    Step.captureDecision c st reason u = Step.captureDecision c st' reason u := by
  simp only [Step.captureDecision, shouldSample_congr st st' h reason u]

/-- What `Step.reject` does to the per-reason sample lists: append the new
rejection to its reason's list when the capture decision is positive and
the list is below the per-reason cap, otherwise leave them unchanged. -/
theorem reject_samples_eq (st : StepState) (item_id reason : String)
    (details : Option Payload) (u : ℚ) (now : Nat) :
    (Step.reject st item_id reason details u now).rejection_samples =
      if Step.captureDecision st.capture st reason u &&
          decide ((lookupD st.rejection_samples reason []).length <
            Step.MAX_SAMPLES_PER_REASON) then
        dictSet st.rejection_samples reason
          (lookupD st.rejection_samples reason [] ++
            [{ item_id := item_id, reason := reason,
               details := details.getD [], timestamp := now }])
      else st.rejection_samples := by
  have hcd : Step.captureDecision st.capture
      { st with
        rejection_counts :=
          (dictSet st.rejection_counts reason (lookupD st.rejection_counts reason 0 + 1)) }
      reason u =
      Step.captureDecision st.capture st reason u :=
    captureDecision_congr _ _ _ rfl reason u
  simp only [Step.reject, hcd]
  by_cases hd : Step.captureDecision st.capture st reason u = true
  · rw [if_pos hd]
    by_cases hlen : (lookupD st.rejection_samples reason []).length <
        Step.MAX_SAMPLES_PER_REASON
    · rw [if_pos hlen, if_pos (by simp [hd, hlen])]
    · rw [if_neg hlen, if_neg (by simp [hd, hlen])]
  · rw [if_neg hd, if_neg (by simp [hd])]

/-- A `Step.reject` call always rewrites the reason's exhaustive count to its
incremented value, whatever the capture decision. -/
theorem reject_counts_eq (st : StepState) (item_id reason : String)
    (details : Option Payload) (u : ℚ) (now : Nat) :
    (Step.reject st item_id reason details u now).rejection_counts =
      dictSet st.rejection_counts reason
        (lookupD st.rejection_counts reason 0 + 1) := by
  simp only [Step.reject]
  split
  · split <;> rfl
  · rfl

/-- A `Step.reject` call never touches the capture mode. -/
theorem reject_capture_eq (st : StepState) (item_id reason : String)
    (details : Option Payload) (u : ℚ) (now : Nat) :
    (Step.reject st item_id reason details u now).capture = st.capture := by
  simp only [Step.reject]
  split
  · split <;> rfl
  · rfl

/-- One `reject` call keeps every per-reason sample list at or below the
per-reason cap. -/
theorem reject_preserves_cap (st : StepState)
    (h : ∀ r, (lookupD st.rejection_samples r []).length ≤
      Step.MAX_SAMPLES_PER_REASON)
    (item_id reason : String) (details : Option Payload) (u : ℚ) (now : Nat) :
    ∀ r, (lookupD (Step.reject st item_id reason details u now).rejection_samples
        r []).length ≤ Step.MAX_SAMPLES_PER_REASON := by
  intro r
  rw [reject_samples_eq]
  split
  · next hcond =>
      simp only [Bool.and_eq_true, decide_eq_true_eq] at hcond
      rw [lookupD_dictSet]
      split
      · simp only [List.length_append, List.length_cons, List.length_nil]
        omega
      · exact h r
  · exact h r

/-- The per-reason cap survives any sequence of `reject` calls. -/
theorem applyRejects_cap (calls : List RejectCall) (st : StepState)
    (h : ∀ r, (lookupD st.rejection_samples r []).length ≤
      Step.MAX_SAMPLES_PER_REASON) :
    ∀ r, (lookupD (applyRejects st calls).rejection_samples r []).length ≤
      Step.MAX_SAMPLES_PER_REASON := by
  induction calls generalizing st with
  | nil => exact h
  | cons c rest ih =>
      exact ih _ (reject_preserves_cap st h c.item_id c.reason c.details c.u c.now)

/-- Stable descending insertion preserves length. -/
theorem length_orderedInsertDesc (a : RunRecord) (l : List RunRecord) :
    (orderedInsertDesc a l).length = l.length + 1 := by
  induction l with
  | nil => rfl
  | cons b rest ih =>
      simp only [orderedInsertDesc]
      split
      · simp
      · simp [ih]

/-- The stable descending sort preserves length. -/
theorem length_sortRunsDesc (l : List RunRecord) :
    (sortRunsDesc l).length = l.length := by
  induction l with
  | nil => rfl
  | cons a rest ih => simp [sortRunsDesc, length_orderedInsertDesc, ih]

/-- Concatenating the pages `[i*limit, i*limit+limit)` for `i < n` rebuilds
the whole list once `n` pages cover its length. -/
theorem pages_rebuild {β : Type} (limit : Nat) :
    ∀ (n : Nat) (l : List β), l.length ≤ n * limit →
      ((List.range n).flatMap fun i => (l.drop (i * limit)).take limit) = l := by
  intro n
  induction n with
  | zero =>
      intro l h
      simp only [Nat.zero_mul, Nat.le_zero] at h
      simp [List.eq_nil_of_length_eq_zero h]
  | succ n ih =>
      intro l h
      rw [add_mul, one_mul] at h
      rw [List.range_succ_eq_map]
      rw [List.flatMap_cons, List.flatMap_map]
      simp only [Nat.zero_mul, List.drop_zero]
      have hshift : ((List.range n).flatMap fun i =>
            (l.drop (Nat.succ i * limit)).take limit) =
          ((List.range n).flatMap fun i =>
            ((l.drop limit).drop (i * limit)).take limit) := by
        apply List.flatMap_congr
        intro i _
        rw [List.drop_drop]
        congr 1
        rw [Nat.succ_mul]
        ring_nf
      rw [hshift, ih (l.drop limit) (by simp only [List.length_drop]; omega)]
      exact List.take_append_drop limit l

/-- A dict lookup returns either the default or a stored entry's value. -/
theorem lookupD_eq_or_mem {α : Type} (d : List (String × α)) (k : String)
    (dflt : α) : lookupD d k dflt = dflt ∨ (k, lookupD d k dflt) ∈ d := by
  induction d with
  | nil => left; rfl
  | cons p rest ih =>
      obtain ⟨k1, v1⟩ := p
      by_cases h1 : k1 = k
      · right
        subst h1
        simp [lookupD]
      · simp only [lookupD, if_neg h1]
        rcases ih with h | h
        · left; exact h
        · right; exact List.mem_cons_of_mem _ h

/-- Every entry of an updated dict is an old entry or the updated pair. -/
theorem mem_dictSet {α : Type} (d : List (String × α)) (k : String) (v : α)
    (p : String × α) (hp : p ∈ dictSet d k v) : p ∈ d ∨ p = (k, v) := by
  induction d with
  | nil =>
      right
      simpa [dictSet] using hp
  | cons q rest ih =>
      obtain ⟨k1, v1⟩ := q
      by_cases h1 : k1 = k
      · subst h1
        simp only [dictSet, if_pos rfl] at hp
        rcases List.mem_cons.1 hp with h | h
        · right; exact h
        · left; exact List.mem_cons_of_mem _ h
      · simp only [dictSet, if_neg h1] at hp
        rcases List.mem_cons.1 hp with h | h
        · left; exact h ▸ List.mem_cons_self _ _
        · rcases ih h with h2 | h2
          · left; exact List.mem_cons_of_mem _ h2
          · right; exact h2

/-- Updating a dict leaves the key list unchanged, or appends the fresh key. -/
theorem map_fst_dictSet {α : Type} (d : List (String × α)) (k : String)
    (v : α) :
    (dictSet d k v).map Prod.fst =
      if k ∈ d.map Prod.fst then d.map Prod.fst
      else d.map Prod.fst ++ [k] := by
  induction d with
  | nil => simp [dictSet]
  | cons p rest ih =>
      obtain ⟨k1, v1⟩ := p
      by_cases h1 : k1 = k
      · subst h1
        simp [dictSet]
      · simp only [dictSet, if_neg h1, List.map_cons, ih]
        by_cases h2 : k ∈ rest.map Prod.fst
        · simp [h2, Ne.symm h1]
        · simp [h2, Ne.symm h1]

/-- Appending a same-reason rejection under its reason's key preserves the
keyed invariant. -/
theorem samplesKeyed_dictSet (d : List (String × List Rejection))
    (k : String) (rej : Rejection) (hk : rej.reason = k)
    (h : samplesKeyed d) :
    samplesKeyed (dictSet d k (lookupD d k [] ++ [rej])) := by
  obtain ⟨hprop, hnd⟩ := h
  constructor
  · intro p hp x hx
    rcases mem_dictSet d k _ p hp with hmem | hpair
    · exact hprop p hmem x hx
    · subst hpair
      rcases List.mem_append.1 hx with h1 | h2
      · rcases lookupD_eq_or_mem d k ([] : List Rejection) with he | hm
        · rw [he] at h1
          cases h1
        · exact hprop _ hm x h1
      · simp only [List.mem_singleton] at h2
        subst h2
        exact hk
  · rw [map_fst_dictSet]
    split
    · exact hnd
    · next hkn => simp [List.nodup_append, hnd, hkn]

/-- A `reject` call preserves the keyed invariant of the sample dict. -/
theorem reject_preserves_keyed (st : StepState)
    (h : samplesKeyed st.rejection_samples) (item_id reason : String)
    (details : Option Payload) (u : ℚ) (now : Nat) :
    samplesKeyed (Step.reject st item_id reason details u now).rejection_samples := by
  rw [reject_samples_eq]
  split
  · exact samplesKeyed_dictSet _ _ _ rfl h
  · exact h

/-- The keyed invariant survives any sequence of `reject` calls. -/
theorem applyRejects_keyed (calls : List RejectCall) (st : StepState)
    (h : samplesKeyed st.rejection_samples) :
    samplesKeyed (applyRejects st calls).rejection_samples := by
  induction calls generalizing st with
  | nil => exact h
  | cons c rest ih =>
      exact ih _ (reject_preserves_keyed st h c.item_id c.reason c.details c.u c.now)

/-- If a reason has no key in a keyed dict, the flattened samples hold no
rejection with that reason. -/
theorem countP_flatten_zero (r : String) :
    ∀ d : List (String × List Rejection),
      (∀ p ∈ d, ∀ x ∈ p.2, x.reason = p.1) → r ∉ d.map Prod.fst →
      ((d.map Prod.snd).flatten.countP (fun x => x.reason == r)) = 0 := by
  intro d
  induction d with
  | nil => intro _ _; rfl
  | cons p rest ih =>
      intro hprop hr
      obtain ⟨k, l⟩ := p
      simp only [List.map_cons, List.mem_cons] at hr
      push_neg at hr
      simp only [List.map_cons, List.flatten_cons, List.countP_append]
      have h1 : l.countP (fun x => x.reason == r) = 0 := by
        rw [List.countP_eq_zero]
        intro x hx
        have hx2 := hprop (k, l) (List.mem_cons_self _ _) x hx
        simp only [hx2]
        simp [Ne.symm hr.1]
      have h2 := ih (fun p hp x hx => hprop p (List.mem_cons_of_mem _ hp) x hx) hr.2
      omega

/-- In a keyed dict, the number of flattened samples with reason `r` is the
length of the list keyed by `r`. -/
theorem countP_flatten_eq (r : String) :
    ∀ d : List (String × List Rejection), samplesKeyed d →
      ((d.map Prod.snd).flatten.countP (fun x => x.reason == r)) =
        (lookupD d r []).length := by
  intro d
  induction d with
  | nil => intro _; rfl
  | cons p rest ih =>
      intro h
      obtain ⟨hprop, hnd⟩ := h
      obtain ⟨k, l⟩ := p
      simp only [List.map_cons, List.nodup_cons] at hnd
      have hrest : samplesKeyed rest :=
        ⟨fun p hp x hx => hprop p (List.mem_cons_of_mem _ hp) x hx, hnd.2⟩
      simp only [List.map_cons, List.flatten_cons, List.countP_append, lookupD]
      by_cases hk : k = r
      · subst hk
        have h1 : l.countP (fun x => x.reason == k) = l.length := by
          rw [List.countP_eq_length]
          intro x hx
          simp [hprop (k, l) (List.mem_cons_self _ _) x hx]
        have h2 := countP_flatten_zero k rest
          (fun p hp x hx => hprop p (List.mem_cons_of_mem _ hp) x hx) hnd.1
        rw [if_pos rfl]
        omega
      · have h1 : l.countP (fun x => x.reason == r) = 0 := by
          rw [List.countP_eq_zero]
          intro x hx
          have hx2 := hprop (k, l) (List.mem_cons_self _ _) x hx
          simp only [hx2]
          simp [hk]
        rw [if_neg hk, ih hrest]
        omega

/-! ## Claims -/

/-- C2: in `sample` capture mode the decision of `Step._should_sample` on a
reject call is: `true` whenever the retained-sample count `k` for the reason
is below the minimum `m = 5`; `false` whenever `k` is at or above the
maximum `M = 20`; otherwise `true` exactly when the draw of the random
source falls below the rate `r = 0.01` (probability `r`). -/
theorem c2_sample_mode_decision (st : StepState) (reason : String) (u : ℚ) :
    (st.capture = "sample" →
      Step.captureDecision st.capture st reason u =
        Step.shouldSample st reason u) ∧
    ((lookupD st.rejection_samples reason []).length <
        Step.MIN_SAMPLES_PER_REASON →
      Step.shouldSample st reason u = true) ∧
    (Step.MAX_SAMPLES_PER_REASON ≤
        (lookupD st.rejection_samples reason []).length →
      Step.shouldSample st reason u = false) ∧
    (Step.MIN_SAMPLES_PER_REASON ≤
        (lookupD st.rejection_samples reason []).length →
      (lookupD st.rejection_samples reason []).length <
        Step.MAX_SAMPLES_PER_REASON →
      Step.shouldSample st reason u = decide (u < Step.DEFAULT_SAMPLE_RATE)) := by
  refine ⟨?_, ?_, ?_, ?_⟩
  · intro h
    rw [h]
    rfl
  · intro h
    simp only [Step.shouldSample]
    rw [if_pos h]
  · intro h
    simp only [Step.MAX_SAMPLES_PER_REASON] at h
    simp only [Step.shouldSample, Step.MIN_SAMPLES_PER_REASON,
      Step.MAX_SAMPLES_PER_REASON]
    rw [if_neg (by omega), if_pos (by omega)]
  · intro h1 h2
    simp only [Step.MIN_SAMPLES_PER_REASON] at h1
    simp only [Step.MAX_SAMPLES_PER_REASON] at h2
    simp only [Step.shouldSample, Step.MIN_SAMPLES_PER_REASON,
      Step.MAX_SAMPLES_PER_REASON]
    rw [if_neg (by omega), if_neg (by omega)]

/-- Witness for C2 at a fresh step: the retained count is `0 < 5`, so the
decision is `true`. -/
theorem c2_sample_mode_decision_witness :
    (lookupD (Step.init "validate" none "sample" 0).rejection_samples
        "low_score" []).length < Step.MIN_SAMPLES_PER_REASON ∧
    Step.shouldSample (Step.init "validate" none "sample" 0) "low_score"
      (1 / 2) = true :=
  ⟨by decide,
    (c2_sample_mode_decision (Step.init "validate" none "sample" 0)
      "low_score" (1 / 2)).2.1 (by decide)⟩

/-- C4: the computed rejection rate is `1 − output_count/input_count` when
both counts are set and `input_count > 0`, `0.0` when both are set and
`input_count = 0`, and `None` when either count is unset; in particular
`input_count=100, output_count=40` yields `0.6`. -/
theorem c4_rejection_rate_formula (i o : Int) :
    (0 < i → Step.calculateRejectionRate (some i) (some o) =
      some (1 - (o : ℚ) / (i : ℚ))) ∧
    (Step.calculateRejectionRate (some 0) (some o) = some 0) ∧
    (∀ oc : Option Int, Step.calculateRejectionRate none oc = none) ∧
    (∀ ic : Option Int, Step.calculateRejectionRate ic none = none) ∧
    Step.calculateRejectionRate (some 100) (some 40) = some (3 / 5 : ℚ) := by
  refine ⟨?_, ?_, ?_, ?_, ?_⟩
  · intro h
    have hne : i ≠ 0 := by omega
    simp [Step.calculateRejectionRate, hne]
  · simp [Step.calculateRejectionRate]
  · intro oc
    cases oc <;> rfl
  · intro ic
    cases ic <;> rfl
  · norm_num [Step.calculateRejectionRate]

/-- Witness for C4 at `input_count=100, output_count=40`. -/
theorem c4_rejection_rate_formula_witness :
    (0 : Int) < 100 ∧
    Step.calculateRejectionRate (some 100) (some 40) =
      some (1 - ((40 : Int) : ℚ) / ((100 : Int) : ℚ)) :=
  ⟨by decide, (c4_rejection_rate_formula 100 40).1 (by decide)⟩

/-- C8: on delivery failure the configured policy decides the outcome —
`buffer` persists the full run record to the offline retry area and raises
nothing, `drop` discards silently, `strict` raises a `ConnectionError` that
propagates out of the run's finalization; on success none of these occur. -/
theorem c8_delivery_policies (url : String) (data : RunRecord) :
    (∀ mode : String,
      Run.sendOutcome true mode url data = DeliveryOutcome.delivered) ∧
    Run.sendOutcome false "buffer" url data =
      DeliveryOutcome.savedOffline data ∧
    Run.sendOutcome false "drop" url data = DeliveryOutcome.dropped ∧
    Run.sendOutcome false "strict" url data =
      DeliveryOutcome.raisedConnectionError
        ("Failed to send run data to " ++ url) ∧
    (∀ (r : RunState) (exc : Option String) (now : Nat),
      r.xray.offline_mode = "strict" →
      (runExit r exc now false).2 =
        DeliveryOutcome.raisedConnectionError
          ("Failed to send run data to " ++ r.xray.api_url)) ∧
    (∀ (r : RunState) (exc : Option String) (now : Nat),
      (runExit r exc now true).2 = DeliveryOutcome.delivered) := by
  refine ⟨fun mode => rfl, rfl, rfl, rfl, ?_, fun r exc now => rfl⟩
  intro r exc now h
  simp only [runExit]
  simp [Run.sendOutcome, h]

/-- Witness for C8: a `strict`-policy run whose delivery fails raises the
`ConnectionError` out of its finalization. -/
theorem c8_delivery_policies_witness :
    strictRun.xray.offline_mode = "strict" ∧
    (runExit strictRun none 5 false).2 =
      DeliveryOutcome.raisedConnectionError
        ("Failed to send run data to " ++ strictRun.xray.api_url) :=
  ⟨by decide,
    (c8_delivery_policies "u" demoRecord).2.2.2.2.1 strictRun none 5
      (by decide)⟩

/-- C9: a fault in a step's or a run's scope does not abort trace
recording — the step is still sealed with the fault message as its error
and appended to the parent run; the run is finalized with `status="failed"`,
its error set and end time stamped, and delivery is still invoked; a
normally exiting run finalizes with `status="completed"`. -/
theorem c9_fault_transparency :
    (∀ (st : StepState) (m : String) (now : Nat) (run : RunState),
      ∃ d : StepData, (stepExit st (some m) now run).steps = run.steps ++ [d] ∧
        d.error = some m ∧ d.ended_at = some now ∧ d.name = st.name) ∧
    (∀ (r : RunState) (m : String) (now : Nat) (success : Bool),
      (runExit r (some m) now success).1.status = "failed" ∧
      (runExit r (some m) now success).1.error = some m ∧
      (runExit r (some m) now success).1.ended_at = some now ∧
      (runExit r (some m) now success).2 =
        Run.sendOutcome success r.xray.offline_mode r.xray.api_url
          (Run.toRecord (runExit r (some m) now success).1)) ∧
    (∀ (r : RunState) (now : Nat) (success : Bool),
      (runExit r none now success).1.status = "completed" ∧
      (runExit r none now success).1.ended_at = some now) := by
  refine ⟨?_, ?_, ?_⟩
  · intro st m now run
    exact ⟨Step.toDict
      { st with ended_at := some now, error := some m },
      rfl, rfl, rfl, rfl⟩
  · intro r m now success
    exact ⟨rfl, rfl, rfl, rfl⟩
  · intro r now success
    exact ⟨rfl, rfl⟩

/-- C6: for every step and every reason `r`, the number of retained samples
for `r` in `sampled_rejections` never exceeds `M = 20`; rejections beyond
`M` for a reason are silently discarded (the sample lists are unchanged, no
error) while the exhaustive `rejection_counts` entry still increments on
every reject call. -/
theorem c6_per_reason_cap (calls : List RejectCall) (name : String)
    (stype : Option String) (capture : String) (now : Nat) :
    (∀ r : String,
      ((Step.sampledRejections
          (applyRejects (Step.init name stype capture now) calls)).countP
        (fun x => x.reason == r)) ≤ Step.MAX_SAMPLES_PER_REASON) ∧
    (∀ (st : StepState) (item_id r : String) (details : Option Payload)
        (u : ℚ) (t : Nat),
      lookupD (Step.reject st item_id r details u t).rejection_counts r 0 =
        lookupD st.rejection_counts r 0 + 1) ∧
    (∀ (st : StepState) (item_id r : String) (details : Option Payload)
        (u : ℚ) (t : Nat),
      Step.MAX_SAMPLES_PER_REASON ≤
        (lookupD st.rejection_samples r []).length →
      (Step.reject st item_id r details u t).rejection_samples =
        st.rejection_samples) := by
  refine ⟨?_, ?_, ?_⟩
  · intro r
    have hkeyed : samplesKeyed
        (applyRejects (Step.init name stype capture now) calls).rejection_samples :=
      applyRejects_keyed calls _ (by constructor <;> simp [Step.init])
    have hcap := applyRejects_cap calls (Step.init name stype capture now)
      (by intro r'; simp [Step.init, lookupD]) r
    rw [Step.sampledRejections, countP_flatten_eq r _ hkeyed]
    exact hcap
  · intro st item_id r details u t
    rw [reject_counts_eq, lookupD_dictSet, if_pos rfl]
  · intro st item_id r details u t h
    have hnl : ¬((lookupD st.rejection_samples r []).length <
        Step.MAX_SAMPLES_PER_REASON) := by omega
    rw [reject_samples_eq, if_neg (by simp [hnl])]

/-- Witness for C6: after twenty-one same-reason rejections the retained
samples for that reason number exactly twenty, and the twenty-first call
left the sample dict unchanged while its count reads 21. -/
theorem c6_per_reason_cap_witness :
    ((Step.sampledRejections
        (applyRejects (Step.init "s" none "full" 0) fullModeCalls)).countP
      (fun x => x.reason == "r")) ≤ Step.MAX_SAMPLES_PER_REASON ∧
    Step.MAX_SAMPLES_PER_REASON ≤
      (lookupD (applyRejects (Step.init "s" none "full" 0)
        (List.replicate 20 bulkCall)).rejection_samples "r" []).length ∧
    (Step.reject (applyRejects (Step.init "s" none "full" 0)
        (List.replicate 20 bulkCall)) "x" "r" none 0 0).rejection_samples =
      (applyRejects (Step.init "s" none "full" 0)
        (List.replicate 20 bulkCall)).rejection_samples :=
  ⟨(c6_per_reason_cap fullModeCalls "s" none "full" 0).1 "r",
   by decide,
   (c6_per_reason_cap fullModeCalls "s" none "full" 0).2.2 _ "x" "r" none 0 0
     (by decide)⟩

/-- C1 as stated is false: in `full` capture mode the per-reason cap of
`MAX_SAMPLES_PER_REASON = 20` still applies, so after twenty-one rejections
with one reason the twenty-first item is missing from `sampled_rejections`
although its reason's exhaustive count reads 21. -/
theorem c1_full_mode_counterexample :
    lookupD (applyRejects (Step.init "s" none "full" 0)
      fullModeCalls).rejection_counts "r" 0 = 21 ∧
    ({ item_id := "x", reason := "r", details := [], timestamp := 0 } :
        Rejection) ∉
      Step.sampledRejections
        (applyRejects (Step.init "s" none "full" 0) fullModeCalls) ∧
    (Step.sampledRejections
      (applyRejects (Step.init "s" none "full" 0) fullModeCalls)).length = 20 := by
  refine ⟨by decide, by decide, by decide⟩

/-- C1 amended: in `full` capture mode every reject call decides to retain
the rejection, and the rejection's detail is added to `sampled_rejections`
provided fewer than `MAX_SAMPLES_PER_REASON = 20` samples are already
retained for its reason (the per-reason cap applies in every capture mode);
the exhaustive count increments regardless. -/
theorem c1_full_mode_retention (st : StepState) (h : st.capture = "full")
    (item_id reason : String) (details : Option Payload) (u : ℚ) (now : Nat)
    (hlen : (lookupD st.rejection_samples reason []).length <
      Step.MAX_SAMPLES_PER_REASON) :
    Step.captureDecision st.capture st reason u = true ∧
    ({ item_id := item_id, reason := reason, details := details.getD [],
       timestamp := now } : Rejection) ∈
      Step.sampledRejections (Step.reject st item_id reason details u now) ∧
    lookupD (Step.reject st item_id reason details u now).rejection_counts
        reason 0 =
      lookupD st.rejection_counts reason 0 + 1 := by
  have hdec : Step.captureDecision st.capture st reason u = true := by
    rw [h]
    rfl
  refine ⟨hdec, ?_, ?_⟩
  · rw [Step.sampledRejections]
    apply mem_lookupD_flatten (k := reason)
    rw [reject_samples_eq, if_pos (by simp [hdec, hlen]),
      lookupD_dictSet, if_pos rfl]
    simp
  · rw [reject_counts_eq, lookupD_dictSet, if_pos rfl]

/-- Witness for the amended C1 at a fresh `full`-mode step. -/
theorem c1_full_mode_retention_witness :
    (Step.init "s" none "full" 0).capture = "full" ∧
    (lookupD (Step.init "s" none "full" 0).rejection_samples "r" []).length <
      Step.MAX_SAMPLES_PER_REASON ∧
    ({ item_id := "i", reason := "r", details := (none : Option Payload).getD [],
       timestamp := 0 } : Rejection) ∈
      Step.sampledRejections
        (Step.reject (Step.init "s" none "full" 0) "i" "r" none 0 0) :=
  ⟨by decide, by decide,
    (c1_full_mode_retention (Step.init "s" none "full" 0) (by decide) "i" "r"
      none 0 0 (by decide)).2.1⟩

/-- C3 as stated is false: nothing validates the capture mode or the
delivery-policy name, and no `ConfigurationError` exists — the client
constructor stores `"bogus"` verbatim, a `"bogus"` policy silently behaves
as `drop` on failure, and a step constructed with capture mode `"weird"`
keeps it and behaves per-operation exactly like `sample` mode (here it
retains a rejection detail, unlike `none` mode). -/
theorem c3_no_validation_counterexample :
    (XRay.init "p" "http://localhost:8000" "bogus").offline_mode = "bogus" ∧
    Run.sendOutcome false "bogus" "http://localhost:8000" demoRecord =
      DeliveryOutcome.dropped ∧
    (Run.step (Run.init "r1" "p" []
        (XRay.init "p" "http://localhost:8000" "bogus") 0)
      "s" none "weird" 0).capture = "weird" ∧
    Step.sampledRejections
        (Step.reject (Step.init "s" none "weird" 0) "i" "r" none 0 0) =
      Step.sampledRejections
        (Step.reject (Step.init "s" none "sample" 0) "i" "r" none 0 0) ∧
    Step.sampledRejections
        (Step.reject (Step.init "s" none "weird" 0) "i" "r" none 0 0) ≠ [] := by
  refine ⟨by decide, by decide, by decide, by decide, by decide⟩

/-- C3 amended: no validation occurs at setup — the client constructor and
`Run.step` accept and store any capture-mode or policy string without any
error; behaviour is determined per operation instead: a capture mode other
than `full`/`none` takes the `sample` branch of every reject call, and a
delivery policy other than `buffer`/`strict` behaves as `drop` (silent
discard) on delivery failure. -/
theorem c3_no_validation (c : String) (hf : c ≠ "full") (hn : c ≠ "none")
    (mode : String) (hb : mode ≠ "buffer") (hs : mode ≠ "strict") :
    (∀ pipeline url : String,
      (XRay.init pipeline url mode).offline_mode = mode) ∧
    (∀ (st : StepState) (reason : String) (u : ℚ),
      Step.captureDecision c st reason u = Step.shouldSample st reason u) ∧
    (∀ (url : String) (data : RunRecord),
      Run.sendOutcome false mode url data = DeliveryOutcome.dropped) ∧
    (∀ (r : RunState) (name : String) (stype : Option String) (now : Nat),
      (Run.step r name stype c now).capture = c) := by
  refine ⟨fun _ _ => rfl, ?_, ?_, fun _ _ _ _ => rfl⟩
  · intro st reason u
    simp [Step.captureDecision, hf, hn]
  · intro url data
    simp [Run.sendOutcome, hb, hs]

/-- Witness for the amended C3 at capture mode `"weird"`, policy `"bogus"`. -/
theorem c3_no_validation_witness :
    ("weird" : String) ≠ "full" ∧ ("weird" : String) ≠ "none" ∧
    ("bogus" : String) ≠ "buffer" ∧ ("bogus" : String) ≠ "strict" ∧
    Step.captureDecision "weird" (Step.init "s" none "weird" 0) "r" 0 =
      Step.shouldSample (Step.init "s" none "weird" 0) "r" 0 ∧
    Run.sendOutcome false "bogus" "u" demoRecord = DeliveryOutcome.dropped :=
  ⟨by decide, by decide, by decide, by decide,
    (c3_no_validation "weird" (by decide) (by decide) "bogus" (by decide)
      (by decide)).2.1 (Step.init "s" none "weird" 0) "r" 0,
    (c3_no_validation "weird" (by decide) (by decide) "bogus" (by decide)
      (by decide)).2.2.1 "u" demoRecord⟩

/-- C7: the `list_steps` rejection-rate filters are strict inequalities on
the stored rate — a step passes `rejection_rate_gt = t` iff its rate is set
and strictly greater than `t`, passes `rejection_rate_lt = t` iff its rate
is set and strictly below `t`, and a step with unset rate never matches
either filter, even `gt = 0` or `lt = 1`. -/
theorem c7_strict_rate_filters (stf nmf : Option String) (gt lt : Option ℚ)
    (t t' : ℚ) (s : StepSummary) :
    (stepKeep stf nmf (some t) lt s = true ↔
      ((∃ v, s.rejection_rate = some v ∧ t < v) ∧
        stepKeep stf nmf none lt s = true)) ∧
    (stepKeep stf nmf gt (some t') s = true ↔
      ((∃ v, s.rejection_rate = some v ∧ v < t') ∧
        stepKeep stf nmf gt none s = true)) ∧
    (s.rejection_rate = none →
      stepKeep stf nmf (some 0) lt s = false ∧
      stepKeep stf nmf gt (some 1) s = false) ∧
    (s.rejection_rate = none →
      ∀ (runs : List RunRecord) (limit offset : Nat),
      s ∉ (list_steps runs stf nmf (some 0) lt limit offset).1 ∧
      s ∉ (list_steps runs stf nmf gt (some 1) limit offset).1) := by
  have key : ∀ (g l : Option ℚ),
      stepKeep stf nmf g l s = true ↔
        ((match g with
          | some tg => ∃ v, s.rejection_rate = some v ∧ tg < v
          | none => True) ∧
         (match l with
          | some tl => ∃ v, s.rejection_rate = some v ∧ v < tl
          | none => True) ∧
         stepKeep stf nmf none none s = true) := by
    intro g l
    cases hr : s.rejection_rate with
    | none =>
        cases g <;> cases l <;> simp [stepKeep, hr]
    | some v =>
        cases g <;> cases l <;> simp [stepKeep, hr] <;> tauto
  refine ⟨?_, ?_, ?_, ?_⟩
  · rw [key (some t) lt, key none lt]
    tauto
  · rw [key gt (some t'), key gt none]
    tauto
  · intro hr
    constructor
    · rw [← Bool.not_eq_true, key (some 0) lt]
      simp [hr]
    · rw [← Bool.not_eq_true, key gt (some 1)]
      simp [hr]
  · intro hr runs limit offset
    have hfalse1 : stepKeep stf nmf (some 0) lt s = false := by
      rw [← Bool.not_eq_true, key (some 0) lt]
      simp [hr]
    have hfalse2 : stepKeep stf nmf gt (some 1) s = false := by
      rw [← Bool.not_eq_true, key gt (some 1)]
      simp [hr]
    constructor
    · intro hmem
      simp only [list_steps] at hmem
      have h1 := (List.take_subset _ _) hmem
      have h2 := (List.drop_subset _ _) h1
      have h3 := (List.mem_filter.1 h2).2
      rw [hfalse1] at h3
      cases h3
    · intro hmem
      simp only [list_steps] at hmem
      have h1 := (List.take_subset _ _) hmem
      have h2 := (List.drop_subset _ _) h1
      have h3 := (List.mem_filter.1 h2).2
      rw [hfalse2] at h3
      cases h3

/-- Witness for C7: an unset-rate step fails `gt = 0` and is absent from any
`list_steps` page that filters on it. -/
theorem c7_strict_rate_filters_witness :
    noneRateStep.rejection_rate = none ∧
    stepKeep none none (some 0) none noneRateStep = false ∧
    noneRateStep ∉ (list_steps [] none none (some 0) none 100 0).1 :=
  ⟨rfl,
   ((c7_strict_rate_filters none none none none 0 1 noneRateStep).2.2.1 rfl).1,
   ((c7_strict_rate_filters none none none none 0 1 noneRateStep).2.2.2 rfl
     [] 100 0).1⟩

/-- C5: for every filter combination, concatenating the successive pages
(`offset = 0, limit, 2·limit, …`) of `list_runs`/`list_steps` reproduces
the full filtered, ordered collection with each element exactly once, and
the returned `total` is the filtered collection's size (counted after
filtering, before pagination), independent of `limit` and `offset`. -/
theorem c5_pagination (runs : List RunRecord) (pf sf stf nmf : Option String)
    (gt lt : Option ℚ) (limit n m : Nat)
    (hn : (runs.filter (runKeep pf sf)).length ≤ n * limit)
    (hm : ((allSteps runs).filter (stepKeep stf nmf gt lt)).length ≤ m * limit) :
    ((List.range n).flatMap fun i =>
        (list_runs runs pf sf limit (i * limit)).1) =
      (sortRunsDesc (runs.filter (runKeep pf sf))).map runSummary ∧
    ((List.range m).flatMap fun i =>
        (list_steps runs stf nmf gt lt limit (i * limit)).1) =
      (allSteps runs).filter (stepKeep stf nmf gt lt) ∧
    (∀ limit2 offset : Nat, (list_runs runs pf sf limit2 offset).2 =
      (runs.filter (runKeep pf sf)).length) ∧
    (∀ limit2 offset : Nat, (list_steps runs stf nmf gt lt limit2 offset).2 =
      ((allSteps runs).filter (stepKeep stf nmf gt lt)).length) := by
  refine ⟨?_, ?_, ?_, ?_⟩
  · have hpage : ∀ i : Nat, (list_runs runs pf sf limit (i * limit)).1 =
        (((sortRunsDesc (runs.filter (runKeep pf sf))).map
          runSummary).drop (i * limit)).take limit := by
      intro i
      simp only [list_runs, List.map_take, List.map_drop]
    rw [List.flatMap_congr (fun i _ => hpage i)]
    exact pages_rebuild limit n _
      (by rw [List.length_map, length_sortRunsDesc]; exact hn)
  · have hpage : ∀ i : Nat, (list_steps runs stf nmf gt lt limit (i * limit)).1 =
        (((allSteps runs).filter
          (stepKeep stf nmf gt lt)).drop (i * limit)).take limit := by
      intro i
      simp only [list_steps]
    rw [List.flatMap_congr (fun i _ => hpage i)]
    exact pages_rebuild limit m _ hm
  · intro limit2 offset
    simp only [list_runs]
    exact length_sortRunsDesc _
  · intro limit2 offset
    rfl

/-- Witness for C5 on a one-run store with `limit = 1`. -/
theorem c5_pagination_witness :
    ([demoRecord].filter (runKeep none none)).length ≤ 1 * 1 ∧
    ((allSteps [demoRecord]).filter
      (stepKeep none none none none)).length ≤ 1 * 1 ∧
    ((List.range 1).flatMap fun i =>
        (list_steps [demoRecord] none none none none 1 (i * 1)).1) =
      (allSteps [demoRecord]).filter (stepKeep none none none none) ∧
    (list_runs [demoRecord] none none 1 0).2 =
      ([demoRecord].filter (runKeep none none)).length :=
  ⟨by decide, by decide,
    (c5_pagination [demoRecord] none none none none none none 1 1 1
      (by decide) (by decide)).2.1,
    (c5_pagination [demoRecord] none none none none none none 1 1 1
      (by decide) (by decide)).2.2.1 1 0⟩

/-- C10: the computed rejection rate is not clamped to `[0, 1]` — with both
counts set and `output_count > input_count > 0` the rate is strictly
negative (`input_count=10, output_count=15` gives `−0.5`), and the query
layer returns such a step's stored rate unchanged. -/
theorem c10_unclamped_negative_rate :
    (∀ i o : Int, 0 < i → i < o →
      ∃ v : ℚ, Step.calculateRejectionRate (some i) (some o) = some v ∧
        v < 0) ∧
    Step.calculateRejectionRate (some 10) (some 15) = some (-(1 / 2 : ℚ)) ∧
    (∀ (runs : List RunRecord) (limit offset : Nat),
      (list_steps runs none none none none limit offset).1 =
        ((allSteps runs).drop offset).take limit) ∧
    (∀ (run : RunRecord) (s : StepData),
      (stepWithRun run s).rejection_rate = s.rejection_rate) ∧
    (list_steps [demoRecord] none none none none 100 0).1 =
      [stepWithRun demoRecord demoStep] ∧
    (stepWithRun demoRecord demoStep).rejection_rate =
      some (-(1 / 2 : ℚ)) := by
  have hhalf : Step.calculateRejectionRate (some 10) (some 15) =
      some (-(1 / 2 : ℚ)) := by
    norm_num [Step.calculateRejectionRate]
  refine ⟨?_, hhalf, ?_, fun run s => rfl, ?_, ?_⟩
  · intro i o hi ho
    have hne : i ≠ 0 := by omega
    refine ⟨1 - (o : ℚ) / (i : ℚ), by simp [Step.calculateRejectionRate, hne], ?_⟩
    have hi2 : (0 : ℚ) < (i : ℚ) := by exact_mod_cast hi
    have ho2 : (i : ℚ) < (o : ℚ) := by exact_mod_cast ho
    have : (1 : ℚ) < (o : ℚ) / (i : ℚ) := by
      rw [lt_div_iff₀ hi2, one_mul]
      exact ho2
    linarith
  · intro runs limit offset
    have hall : ∀ s ∈ allSteps runs, stepKeep none none none none s = true :=
      fun s _ => rfl
    simp only [list_steps]
    rw [List.filter_eq_self.mpr hall]
  · rfl
  · show demoStep.rejection_rate = some (-(1 / 2 : ℚ))
    show Step.calculateRejectionRate (some 10) (some 15) = some (-(1 / 2 : ℚ))
    exact hhalf

/-- Witness for C10 at `input_count=10, output_count=15`. -/
theorem c10_unclamped_negative_rate_witness :
    (0 : Int) < 10 ∧ (10 : Int) < 15 ∧
    ∃ v : ℚ, Step.calculateRejectionRate (some 10) (some 15) = some v ∧
      v < 0 :=
  ⟨by decide, by decide,
    c10_unclamped_negative_rate.1 10 15 (by decide) (by decide)⟩

end XRayArch
